import Mathlib

/-!
Shallow embedding of the `midi2score` C sources: the numbered-notation note
codec (`note.c`, `note.h`, `key.h`) and the MIDI event / track decoder
(`midi.c`).  Machine integers are modelled as `Nat` with an explicit `% 256`
wherever the C truncates to `uint8_t`; the decoder's `FILE` cursor is a
`List Nat` of the bytes not yet read, and the `static uint8_t running_cmd`
of `midi_parse_event` is threaded through as an explicit argument and
result.
-/

namespace MidiToScore

set_option maxRecDepth 4096

/-! ## Note codec (note.c) -/

/-- Semitone offsets of the scale degrees 1..7: the local array
`offset[] = { 0, 2, 4, 5, 7, 9, 11 }` of both decode functions in note.c. -/
def degreeOffset : List Nat := [0, 2, 4, 5, 7, 9, 11]

/-- Structure `Note_t` (midi.h): the bit-packed full note.  Field widths in the C are
note:3, sharp:1, length:2, octaves:2, oct2:1, len2:1, dot:1.  The reserved
fields `rfu`, `expression` and `dynamics` are read by no function in the
repository and are never initialised by `NumNotaiton_KeyToNote`, so they are
not modelled. -/
structure Note_t where
  note : Nat
  sharp : Nat
  length : Nat
  octaves : Nat
  oct2 : Nat
  len2 : Nat
  dot : Nat
deriving DecidableEq

/-- Structure `NoteSimplified_t` (midi.h): note:3, sharp:1, length:2, octaves:2. -/
structure NoteSimplified_t where
  note : Nat
  sharp : Nat
  length : Nat
  octaves : Nat
deriving DecidableEq

/-- Function `NumNotaiton_NoteToKeyNote` (note.c lines 6-52).  `octOffset` is a C
`uint8_t`, so the branches that compute a negative `int` wrap modulo 256
(`note.octaves - 4` and `- note.octaves`); the returned key is the final
`int` sum truncated to `uint8_t`.  `KEY_PIANO_60 = 60` and
`KEY_OFFSET_PER_DEGREE = 12` (key.h). -/
def NumNotaiton_NoteToKeyNote (note : Note_t) : Nat :=
  if note.note = 0 then 0
  else
    let octOffset : Nat :=
      if note.oct2 ≠ 0 then
        if note.octaves &&& 2 ≠ 0 then (note.octaves + 256 - 4) % 256
        else 4 - note.octaves
      else
        if note.octaves &&& 2 ≠ 0 then 4 - note.octaves
        else (256 - note.octaves) % 256
    (60 + degreeOffset.getD (note.note - 1) 0 + note.sharp + octOffset * 12) % 256

/-- Function `NumNotaiton_NoteSimpToKeyNote` (note.c lines 54-65): the same formula
with only the `oct2 == 0` offset computation. -/
def NumNotaiton_NoteSimpToKeyNote (note : NoteSimplified_t) : Nat :=
  let octOffset : Nat :=
    if note.octaves &&& 2 ≠ 0 then 4 - note.octaves
    else (256 - note.octaves) % 256
  if note.note = 0 then 0
  else (60 + degreeOffset.getD (note.note - 1) 0 + note.sharp + octOffset * 12) % 256

/-- Table `noteSharpMap` (note.c lines 70-86): scale degree and sharp flag for
each of the 12 semitones of an octave. -/
def noteSharpMap : List (Nat × Nat) :=
  [(1, 0), (1, 1), (2, 0), (2, 1), (3, 0), (4, 0),
   (4, 1), (5, 0), (5, 1), (6, 0), (6, 1), (7, 0)]

/-- Table `octaveMap` (note.c lines 98-107): `(oct2, octaves)` pairs for octave
indices 0..7, i.e. octave offsets -3..+4 (keys 24-119 in steps of 12). -/
def octaveMap : List (Nat × Nat) :=
  [(1, 3), (1, 2), (0, 1), (0, 0), (0, 3), (0, 2), (1, 1), (1, 0)]

/-- Function `NumNotaiton_KeyToNote` (note.c lines 88-123).  Keys outside [24,108)
are `memset` to the all-zero note.  `!!dot` and the masks `length & 0x3`,
`!!(length & 0x4)` are modelled literally. -/
def NumNotaiton_KeyToNote (key length dot : Nat) : Note_t :=
  if key < 24 ∨ 108 ≤ key then
    { note := 0, sharp := 0, length := 0, octaves := 0, oct2 := 0, len2 := 0, dot := 0 }
  else
    let ns := noteSharpMap.getD (key % 12) (0, 0)
    let om := octaveMap.getD ((key - 24) / 12) (0, 0)
    { note := ns.1
      sharp := ns.2
      length := length &&& 0x3
      octaves := om.2
      oct2 := om.1
      len2 := if length &&& 0x4 ≠ 0 then 1 else 0
      dot := if dot ≠ 0 then 1 else 0 }

/-- The local `octaves[]` table of `NumNotaiton_KeyToNoteSimp` (note.c
lines 132-137): octave classes for octave indices 0..3 (keys 48-95). -/
def simpOctaveMap : List Nat := [1, 0, 3, 2]

/-- Function `NumNotaiton_KeyToNoteSimp` (note.c lines 125-150).  Keys outside
[48,96) are `memset` to the all-zero simplified note. -/
def NumNotaiton_KeyToNoteSimp (key length : Nat) : NoteSimplified_t :=
  if key < 48 ∨ 96 ≤ key then
    { note := 0, sharp := 0, length := 0, octaves := 0 }
  else
    let ns := noteSharpMap.getD (key % 12) (0, 0)
    { note := ns.1
      sharp := ns.2
      length := length &&& 0x3
      octaves := simpOctaveMap.getD ((key - 48) / 12) 0 }

/-! ## MIDI decoder (midi.c) -/

/-- Constant `MIDI_EVENT_TYPE_EVENT` (midi.h, first enumerator of the event-type
enum). -/
def MIDI_EVENT_TYPE_EVENT : Nat := 0

/-- Constant `MIDI_EVENT_TYPE_META` (midi.h). -/
def MIDI_EVENT_TYPE_META : Nat := 1

/-- Structure `midi_event_t` (midi.h): a decoded event.  `data` is the flexible
trailing byte array. -/
structure midi_event_t where
  delta_time : Nat
  type : Nat
  cmd : Nat
  chan : Nat
  size : Nat
  data : List Nat
deriving DecidableEq

/-- One `fread(&buf, 1, 1, file)` of a single byte: the byte read, the
remaining stream, and the number of bytes actually read — the `fread`
return value that the C adds to `*bytes`.  On an exhausted stream the
destination buffer keeps its previous contents; every such buffer the
theorems below depend on is zero-initialised in the C, so the model
returns 0. -/
def readByte : List Nat → Nat × List Nat × Nat
  | [] => (0, [], 0)
  | b :: rest => (b, rest, 1)

/-- The do-while loop of `midi_parse_delta_time` (midi.c lines 434-443):
`tmp[read]` is masked to its low 7 bits and accumulated big-endian, the
loop continues while the byte's high bit was set and fewer than 4 bytes
were read.  On an exhausted stream `tmp[read]` keeps its zero initialiser,
so the accumulator is shifted once more, `read` still advances (the C
ignores the `fread` result here), and the loop stops. -/
def deltaTimeLoop : List Nat → Nat → Nat → Nat × Nat × List Nat
  | [], delta_time, read => ((delta_time <<< 7) ||| 0, read + 1, [])
  | tmp :: rest, delta_time, read =>
    let delta_time1 := (delta_time <<< 7) ||| (tmp &&& 0x7F)
    let read1 := read + 1
    if tmp &&& 0x80 ≠ 0 ∧ read1 < 4 then deltaTimeLoop rest delta_time1 read1
    else (delta_time1, read1, rest)

/-- Function `midi_parse_delta_time` (midi.c lines 427-448): returns the decoded
delta time, the number of bytes consumed (added to `*bytes` by the C),
and the remaining stream. -/
def midi_parse_delta_time (input : List Nat) : Nat × Nat × List Nat :=
  deltaTimeLoop input 0 0

/-- Function `midi_parse_event` (midi.c lines 311-425).  The C's process-wide
`static uint8_t running_cmd` is the explicit `running_cmd` argument, and
the updated value is returned.  Result: `some (event, bytes consumed,
new running status, remaining stream)`, or `none` where the C returns
`NULL` (a continuation byte with no bit-3 running command).  `malloc` is
assumed to succeed.  In the meta branch the C adds the declared `size` to
`*bytes` without checking the payload `fread`, which is mirrored by
`take`/`drop`. -/
def midi_parse_event (input : List Nat) (running_cmd : Nat) :
    Option (midi_event_t × Nat × Nat × List Nat) :=
  let (delta_time, dread, in1) := midi_parse_delta_time input
  let (cmdchan, in2, r1) := readByte in1
  let bytes0 := dread + r1
  if cmdchan = 0xFF then
    let (cmd, in3, r2) := readByte in2
    let (size, in4, r3) := readByte in3
    some ({ delta_time := delta_time, type := MIDI_EVENT_TYPE_META, cmd := cmd,
            chan := 0, size := size, data := in4.take size },
          bytes0 + r2 + r3 + size, running_cmd, in4.drop size)
  else
    let cmd0 := (cmdchan >>> 4) &&& 0xF
    let chan := cmdchan &&& 0xF
    if cmd0 &&& 0x08 = 0 then
      -- no command bit: reuse the running command, the byte itself is args[0]
      if running_cmd &&& 0x08 = 0 then none
      else if running_cmd = 0xC ∨ running_cmd = 0xD then
        some ({ delta_time := delta_time, type := MIDI_EVENT_TYPE_EVENT,
                cmd := running_cmd, chan := chan, size := 1, data := [cmdchan] },
              bytes0, running_cmd, in2)
      else
        let (a1, in3, r2) := readByte in2
        some ({ delta_time := delta_time, type := MIDI_EVENT_TYPE_EVENT,
                cmd := running_cmd, chan := chan, size := 2, data := [cmdchan, a1] },
              bytes0 + r2, running_cmd, in3)
    else
      -- a genuine command byte establishes the running command
      if cmd0 = 0xC ∨ cmd0 = 0xD then
        let (a0, in3, r2) := readByte in2
        some ({ delta_time := delta_time, type := MIDI_EVENT_TYPE_EVENT,
                cmd := cmd0, chan := chan, size := 1, data := [a0] },
              bytes0 + r2, cmd0, in3)
      else
        let (a0, in3, r2) := readByte in2
        let (a1, in4, r3) := readByte in3
        some ({ delta_time := delta_time, type := MIDI_EVENT_TYPE_EVENT,
                cmd := cmd0, chan := chan, size := 2, data := [a0, a1] },
              bytes0 + r2 + r3, cmd0, in4)

/-- Constant `MIDI_TRACK_MAGIC` (midi.c line 13): the bytes of `"MTrk"`. -/
def MIDI_TRACK_MAGIC : List Nat := [77, 84, 114, 107]

/-- Function `midi_parse_track_hdr` (midi.c lines 249-269): reads the 4 magic bytes
and the big-endian 32-bit declared size (`btol_32` of the stored bytes);
fails if fewer than 8 bytes remain or the magic is not `"MTrk"`. -/
def midi_parse_track_hdr : List Nat → Option (Nat × List Nat)
  | m0 :: m1 :: m2 :: m3 :: s0 :: s1 :: s2 :: s3 :: rest =>
    if [m0, m1, m2, m3] = MIDI_TRACK_MAGIC then
      some (((s0 * 256 + s1) * 256 + s2) * 256 + s3, rest)
    else none
  | _ => none

/-- The `while (bytes < trk->hdr.size)` loop of `midi_parse_track`
(midi.c lines 295-304): keep appending events while the cumulative
consumed-byte count is below the declared size.  `fuel` only bounds the
recursion: every parsed event consumes at least its one delta-time byte,
so the loop body runs fewer than `size` times and the `size + 1` fuel
supplied by `midi_parse_track` is never exhausted. -/
def midi_parse_track_loop (fuel : Nat) (size : Nat) (input : List Nat)
    (running_cmd bytes : Nat) : Option (List midi_event_t × Nat × Nat × List Nat) :=
  match fuel with
  | 0 => none
  | fuel + 1 =>
    if bytes < size then
      match midi_parse_event input running_cmd with
      | none => none
      | some (ev, c, rc, rest) =>
        match midi_parse_track_loop fuel size rest rc (bytes + c) with
        | none => none
        | some (evs, b, rc2, rem) => some (ev :: evs, b, rc2, rem)
    else
      some ([], bytes, running_cmd, input)

/-- Function `midi_parse_track` (midi.c lines 271-309): parse the track header,
then unconditionally parse a first event, then run the consumed-bytes
loop.  Result: `some (events, bytes consumed by events, final running
status, remaining stream)`, or `none` where the C returns `false`. -/
def midi_parse_track (input : List Nat) (running_cmd : Nat) :
    Option (List midi_event_t × Nat × Nat × List Nat) :=
  match midi_parse_track_hdr input with
  | none => none
  | some (size, rest) =>
    match midi_parse_event rest running_cmd with
    | none => none
    | some (ev, c, rc, rest1) =>
      match midi_parse_track_loop (size + 1) size rest1 rc c with
      | none => none
      | some (evs, b, rc2, rem) => some (ev :: evs, b, rc2, rem)

/-- Modelled from the spec: the standard MIDI variable-length-quantity
encoding, which the repository does not contain (it only decodes).
Spec §4.2/§8: big-endian 7-bit groups, minimal length, the high bit set
on every byte but the last, at most 4 bytes (28 bits). -/
def vlqEncode (v : Nat) : List Nat :=
  if v < 0x80 then [v]
  else if v < 0x4000 then
    [0x80 + v / 0x80, v % 0x80]
  else if v < 0x200000 then
    [0x80 + v / 0x4000, 0x80 + v / 0x80 % 0x80, v % 0x80]
  else
    [0x80 + v / 0x200000, 0x80 + v / 0x4000 % 0x80, 0x80 + v / 0x80 % 0x80, v % 0x80]

/-! ## Helper lemmas -/

/-- A byte masked to its low 7 bits is the byte modulo 128. -/
theorem and7F (b : Nat) : b &&& 0x7F = b % 0x80 := by
  have h := Nat.and_pow_two_sub_one_eq_mod b 7
  norm_num at h
  exact h

/-- A byte below 0x80 has a clear high bit. -/
theorem and80_eq_zero {b : Nat} (h : b < 0x80) : b &&& 0x80 = 0 := by
  have hb : b < 2 ^ 7 := lt_of_lt_of_le h (by norm_num)
  have h2 := Nat.and_two_pow b 7
  rw [Nat.testBit_lt_two_pow hb] at h2
  simpa using h2

/-- A byte in [0x80, 0x100) has a set high bit. -/
theorem and80_ne_zero : ∀ b, b < 0x100 → 0x80 ≤ b → b &&& 0x80 ≠ 0 := by decide

/-- A byte below 0x80 has a command nibble without bit 3. -/
theorem low_byte_cmd0 : ∀ b, b < 0x80 → ((b >>> 4) &&& 0xF) &&& 0x08 = 0 := by decide

/-- Accumulating 7 fresh low bits: shift-or is multiply-add. -/
theorem shiftLeft7_or (a m : Nat) (h : m < 0x80) : (a <<< 7) ||| m = a * 0x80 + m := by
  have hm : m < 2 ^ 7 := lt_of_lt_of_le h (by norm_num)
  have h2 := Nat.mul_add_lt_is_or hm a
  calc (a <<< 7) ||| m = 2 ^ 7 * a ||| m := by rw [Nat.shiftLeft_eq, mul_comm]
    _ = 2 ^ 7 * a + m := h2.symm
    _ = a * 0x80 + m := by rw [mul_comm]

/-- One loop iteration that reads a byte with a clear high bit stops. -/
theorem deltaTimeLoop_stop {b : Nat} (hb : b &&& 0x80 = 0) (l : List Nat) (acc read : Nat) :
    deltaTimeLoop (b :: l) acc read = ((acc <<< 7) ||| (b &&& 0x7F), read + 1, l) := by
  simp [deltaTimeLoop, hb]

/-- One loop iteration that reads a byte with a set high bit before the
fourth byte continues. -/
theorem deltaTimeLoop_cont {b : Nat} (hb : b &&& 0x80 ≠ 0) {read : Nat} (hr : read + 1 < 4)
    (l : List Nat) (acc : Nat) :
    deltaTimeLoop (b :: l) acc read =
      deltaTimeLoop l ((acc <<< 7) ||| (b &&& 0x7F)) (read + 1) := by
  simp [deltaTimeLoop, hb, hr]

/-- The fourth iteration stops regardless of the continuation bit. -/
theorem deltaTimeLoop_last (b : Nat) (l : List Nat) (acc : Nat) :
    deltaTimeLoop (b :: l) acc 3 = ((acc <<< 7) ||| (b &&& 0x7F), 4, l) := by
  simp [deltaTimeLoop]

/-- The loop always advances `read` and never takes it past 4. -/
theorem deltaTimeLoop_read_bounds :
    ∀ (input : List Nat) (acc read : Nat), read < 4 →
      read + 1 ≤ (deltaTimeLoop input acc read).2.1 ∧ (deltaTimeLoop input acc read).2.1 ≤ 4 := by
  intro input
  induction input with
  | nil => intro acc read h; simp [deltaTimeLoop]; omega
  | cons b rest ih =>
    intro acc read h
    by_cases hc : b &&& 0x80 ≠ 0 ∧ read + 1 < 4
    · rw [deltaTimeLoop_cont hc.1 hc.2]
      have := ih ((acc <<< 7) ||| (b &&& 0x7F)) (read + 1) hc.2
      omega
    · simp only [deltaTimeLoop, if_neg hc]
      simp; omega

/-- The simplified encoder ignores everything about `length` except the
two bits it stores, and the decoder reads no length at all. -/
theorem noteSimpToKey_keyToNoteSimp_length_free (k len : Nat) :
    NumNotaiton_NoteSimpToKeyNote (NumNotaiton_KeyToNoteSimp k len)
      = NumNotaiton_NoteSimpToKeyNote (NumNotaiton_KeyToNoteSimp k 0) := by
  by_cases h : k < 48 ∨ 96 ≤ k
  · rw [NumNotaiton_KeyToNoteSimp, if_pos h, NumNotaiton_KeyToNoteSimp, if_pos h]
  · rw [NumNotaiton_KeyToNoteSimp, if_neg h, NumNotaiton_KeyToNoteSimp, if_neg h]
    rfl

/-- Round-trip of the simplified codec on its whole valid domain, with
the length fixed to 0; checked by evaluation. -/
theorem keyToNoteSimp_roundTrip_ball :
    ∀ k, k < 96 → 48 ≤ k →
      NumNotaiton_NoteSimpToKeyNote (NumNotaiton_KeyToNoteSimp k 0) = k := by decide

/-- A one-byte delta time: a single byte with a clear high bit decodes to
itself and consumes one byte. -/
theorem midi_parse_delta_time_low {d : Nat} (hd : d < 0x80) (l : List Nat) :
    midi_parse_delta_time (d :: l) = (d, 1, l) := by
  rw [midi_parse_delta_time, deltaTimeLoop_stop (and80_eq_zero hd)]
  simp [Nat.zero_shiftLeft, and7F, Nat.mod_eq_of_lt hd]

/-- When the loop of `midi_parse_track` returns successfully, the
cumulative consumed-byte count has reached the declared size: the loop
only stops (successfully) once `bytes < size` fails. -/
theorem midi_parse_track_loop_ge :
    ∀ (fuel size : Nat) (input : List Nat) (rc bytes : Nat)
      (evs : List midi_event_t) (b rc2 : Nat) (rem : List Nat),
      midi_parse_track_loop fuel size input rc bytes = some (evs, b, rc2, rem) → size ≤ b := by
  intro fuel
  induction fuel with
  | zero =>
    intro size input rc bytes evs b rc2 rem h
    simp [midi_parse_track_loop] at h
  | succ fuel ih =>
    intro size input rc bytes evs b rc2 rem h
    rw [midi_parse_track_loop] at h
    by_cases hlt : bytes < size
    · rw [if_pos hlt] at h
      split at h
      · exact absurd h (by simp)
      · rename_i ev c rc1 rest he
        split at h
        · exact absurd h (by simp)
        · rename_i evs1 b1 rc3 rem1 hl
          simp only [Option.some.injEq, Prod.mk.injEq] at h
          obtain ⟨-, hb, -, -⟩ := h
          exact hb ▸ ih size rest rc1 (bytes + c) evs1 b1 rc3 rem1 hl
    · rw [if_neg hlt] at h
      simp only [Option.some.injEq, Prod.mk.injEq] at h
      obtain ⟨-, hb, -, -⟩ := h
      omega

/-! ## Claims -/

/-- C1: the claim asserts that `NumNotaiton_NoteToKeyNote` inverts
`NumNotaiton_KeyToNote` on all of [24,108), including the octave −3 band
of keys 24-35.  The code disagrees on exactly that band: key 24 encodes to
`(oct2 = 1, octaves = 3)` — the comment table in
`NumNotaiton_NoteToKeyNote` documents bits 111 as octave −3 — but the
decode formula maps it to octave offset −1 (255 as `uint8_t`), so the
round trip returns 48, not 24. -/
theorem keyToNote_roundTrip_fails_at_24 :
    NumNotaiton_NoteToKeyNote (NumNotaiton_KeyToNote 24 0 0) = 48 := by decide

/-- C5: for every key in [48,96) and every length argument, decoding the
simplified note produced by `NumNotaiton_KeyToNoteSimp` with
`NumNotaiton_NoteSimpToKeyNote` returns the original key. -/
theorem keyToNoteSimp_roundTrip (k len : Nat) (h1 : 48 ≤ k) (h2 : k < 96) :
    NumNotaiton_NoteSimpToKeyNote (NumNotaiton_KeyToNoteSimp k len) = k := by
  rw [noteSimpToKey_keyToNoteSimp_length_free]
  exact keyToNoteSimp_roundTrip_ball k h2 h1

/-- Witness for C5 at key 60, length 5. -/
theorem keyToNoteSimp_roundTrip_witness :
    48 ≤ 60 ∧ 60 < 96 ∧ NumNotaiton_NoteSimpToKeyNote (NumNotaiton_KeyToNoteSimp 60 5) = 60 :=
  ⟨by decide, by decide, keyToNoteSimp_roundTrip 60 5 (by decide) (by decide)⟩

/-- C6: for any `uint8_t` key outside the valid domain both encoders
return the all-zero rest value (whatever the length/dot arguments), and
both decoders map any degree-0 note to key 0 regardless of its other
fields. -/
theorem out_of_range_keys_and_rests :
    (∀ key length dot : Nat, key < 256 → (key < 24 ∨ 108 ≤ key) →
      NumNotaiton_KeyToNote key length dot
        = { note := 0, sharp := 0, length := 0, octaves := 0, oct2 := 0, len2 := 0, dot := 0 }) ∧
    (∀ key length : Nat, key < 256 → (key < 48 ∨ 96 ≤ key) →
      NumNotaiton_KeyToNoteSimp key length
        = { note := 0, sharp := 0, length := 0, octaves := 0 }) ∧
    (∀ n : Note_t, n.note = 0 → NumNotaiton_NoteToKeyNote n = 0) ∧
    (∀ n : NoteSimplified_t, n.note = 0 → NumNotaiton_NoteSimpToKeyNote n = 0) := by
  refine ⟨?_, ?_, ?_, ?_⟩
  · intro key length dot _ hout
    rw [NumNotaiton_KeyToNote, if_pos hout]
  · intro key length _ hout
    rw [NumNotaiton_KeyToNoteSimp, if_pos hout]
  · intro n h
    rw [NumNotaiton_NoteToKeyNote, if_pos h]
  · intro n h
    simp [NumNotaiton_NoteSimpToKeyNote, h]

/-- Witness for C6 at key 10 (full), key 110 (simplified), and two
degree-0 notes with nonzero other fields. -/
theorem out_of_range_keys_and_rests_witness :
    NumNotaiton_KeyToNote 10 3 1
        = { note := 0, sharp := 0, length := 0, octaves := 0, oct2 := 0, len2 := 0, dot := 0 } ∧
    NumNotaiton_KeyToNoteSimp 110 2 = { note := 0, sharp := 0, length := 0, octaves := 0 } ∧
    NumNotaiton_NoteToKeyNote
        { note := 0, sharp := 1, length := 2, octaves := 3, oct2 := 1, len2 := 1, dot := 1 } = 0 ∧
    NumNotaiton_NoteSimpToKeyNote { note := 0, sharp := 1, length := 3, octaves := 2 } = 0 :=
  ⟨out_of_range_keys_and_rests.1 10 3 1 (by decide) (by decide),
   out_of_range_keys_and_rests.2.1 110 2 (by decide) (by decide),
   out_of_range_keys_and_rests.2.2.1 _ rfl,
   out_of_range_keys_and_rests.2.2.2 _ rfl⟩

/-- C10: on any representable note with `oct2 = 0`, the simplified decoder
`NumNotaiton_NoteSimpToKeyNote` computes exactly what the full decoder
`NumNotaiton_NoteToKeyNote` computes from the same degree, sharp and
octave-class fields — the simplified octave-offset formula is the
`oct2 = 0` branch of the full one, and neither reads the length bits. -/
theorem noteSimp_decode_refines_full (n s l l2 o ln2 dt : Nat)
    (_hn : n < 8) (_hs : s < 2) (_ho : o < 4) :
    NumNotaiton_NoteSimpToKeyNote { note := n, sharp := s, length := l, octaves := o }
      = NumNotaiton_NoteToKeyNote
          { note := n, sharp := s, length := l2, octaves := o, oct2 := 0, len2 := ln2, dot := dt } := by
  simp [NumNotaiton_NoteSimpToKeyNote, NumNotaiton_NoteToKeyNote]

/-- Witness for C10 at degree 5, sharp 1, octave class 3. -/
theorem noteSimp_decode_refines_full_witness :
    NumNotaiton_NoteSimpToKeyNote { note := 5, sharp := 1, length := 2, octaves := 3 }
      = NumNotaiton_NoteToKeyNote
          { note := 5, sharp := 1, length := 1, octaves := 3, oct2 := 0, len2 := 1, dot := 1 } :=
  noteSimp_decode_refines_full 5 1 2 1 3 1 1 (by decide) (by decide) (by decide)

/-- C7: the delta-time decoder consumes between 1 and 4 bytes from any
position, and decoding the standard VLQ encoding of any value below 2^28
(placed before arbitrary further bytes) returns exactly that value, the
encoding's byte count, and the untouched remaining bytes. -/
theorem delta_time_bounds_and_vlq_roundTrip :
    (∀ input : List Nat,
        1 ≤ (midi_parse_delta_time input).2.1 ∧ (midi_parse_delta_time input).2.1 ≤ 4) ∧
    (∀ v : Nat, v < 2 ^ 28 → ∀ rest : List Nat,
        midi_parse_delta_time (vlqEncode v ++ rest) = (v, (vlqEncode v).length, rest)) := by
  constructor
  · intro input
    exact deltaTimeLoop_read_bounds input 0 0 (by norm_num)
  · intro v hv rest
    have hv28 : v < 268435456 := lt_of_lt_of_le hv (by norm_num)
    by_cases h1 : v < 0x80
    · rw [vlqEncode, if_pos h1]
      simp only [List.cons_append, List.nil_append, List.length_cons, List.length_nil]
      exact midi_parse_delta_time_low h1 rest
    · by_cases h2 : v < 0x4000
      · rw [vlqEncode, if_neg h1, if_pos h2]
        simp only [List.cons_append, List.nil_append, List.length_cons, List.length_nil]
        rw [midi_parse_delta_time,
            deltaTimeLoop_cont (and80_ne_zero _ (by omega) (by omega)) (by norm_num),
            deltaTimeLoop_stop (and80_eq_zero (by omega))]
        have e1 : (0 <<< 7) ||| ((0x80 + v / 0x80) &&& 0x7F) = v / 0x80 := by
          rw [and7F, Nat.zero_shiftLeft, Nat.zero_or]
          omega
        rw [e1, and7F (v % 0x80),
            shiftLeft7_or (v / 0x80) (v % 0x80 % 0x80) (by omega)]
        have e2 : v / 0x80 * 0x80 + v % 0x80 % 0x80 = v := by omega
        rw [e2]
      · by_cases h3 : v < 0x200000
        · rw [vlqEncode, if_neg h1, if_neg h2, if_pos h3]
          simp only [List.cons_append, List.nil_append, List.length_cons, List.length_nil]
          rw [midi_parse_delta_time,
              deltaTimeLoop_cont (and80_ne_zero _ (by omega) (by omega)) (by norm_num),
              deltaTimeLoop_cont (and80_ne_zero _ (by omega) (by omega)) (by norm_num),
              deltaTimeLoop_stop (and80_eq_zero (by omega))]
          have e1 : (0 <<< 7) ||| ((0x80 + v / 0x4000) &&& 0x7F) = v / 0x4000 := by
            rw [and7F, Nat.zero_shiftLeft, Nat.zero_or]
            omega
          rw [e1, and7F (0x80 + v / 0x80 % 0x80),
              shiftLeft7_or (v / 0x4000) ((0x80 + v / 0x80 % 0x80) % 0x80) (by omega)]
          have hdd : v / 0x80 / 0x80 = v / 0x4000 := by
            rw [Nat.div_div_eq_div_mul]
          have e2 : v / 0x4000 * 0x80 + (0x80 + v / 0x80 % 0x80) % 0x80 = v / 0x80 := by
            rw [← hdd]
            omega
          rw [e2, and7F (v % 0x80),
              shiftLeft7_or (v / 0x80) (v % 0x80 % 0x80) (by omega)]
          have e3 : v / 0x80 * 0x80 + v % 0x80 % 0x80 = v := by omega
          rw [e3]
        · rw [vlqEncode, if_neg h1, if_neg h2, if_neg h3]
          simp only [List.cons_append, List.nil_append, List.length_cons, List.length_nil]
          rw [midi_parse_delta_time,
              deltaTimeLoop_cont (and80_ne_zero _ (by omega) (by omega)) (by norm_num),
              deltaTimeLoop_cont (and80_ne_zero _ (by omega) (by omega)) (by norm_num),
              deltaTimeLoop_cont (and80_ne_zero _ (by omega) (by omega)) (by norm_num),
              deltaTimeLoop_stop (and80_eq_zero (by omega))]
          have e1 : (0 <<< 7) ||| ((0x80 + v / 0x200000) &&& 0x7F) = v / 0x200000 := by
            rw [and7F, Nat.zero_shiftLeft, Nat.zero_or]
            omega
          rw [e1, and7F (0x80 + v / 0x4000 % 0x80),
              shiftLeft7_or (v / 0x200000) ((0x80 + v / 0x4000 % 0x80) % 0x80) (by omega)]
          have hdd1 : v / 0x4000 / 0x80 = v / 0x200000 := by
            rw [Nat.div_div_eq_div_mul]
          have e2 : v / 0x200000 * 0x80 + (0x80 + v / 0x4000 % 0x80) % 0x80 = v / 0x4000 := by
            rw [← hdd1]
            omega
          rw [e2, and7F (0x80 + v / 0x80 % 0x80),
              shiftLeft7_or (v / 0x4000) ((0x80 + v / 0x80 % 0x80) % 0x80) (by omega)]
          have hdd2 : v / 0x80 / 0x80 = v / 0x4000 := by
            rw [Nat.div_div_eq_div_mul]
          have e3 : v / 0x4000 * 0x80 + (0x80 + v / 0x80 % 0x80) % 0x80 = v / 0x80 := by
            rw [← hdd2]
            omega
          rw [e3, and7F (v % 0x80),
              shiftLeft7_or (v / 0x80) (v % 0x80 % 0x80) (by omega)]
          have e4 : v / 0x80 * 0x80 + v % 0x80 % 0x80 = v := by omega
          rw [e4]

/-- Witness for C7 at the spec's boundary value 16384 with trailing
bytes. -/
theorem delta_time_vlq_roundTrip_witness :
    16384 < 2 ^ 28 ∧
    midi_parse_delta_time (vlqEncode 16384 ++ [7, 8]) = (16384, (vlqEncode 16384).length, [7, 8]) :=
  ⟨by norm_num, delta_time_bounds_and_vlq_roundTrip.2 16384 (by norm_num) [7, 8]⟩

/-- C8: a meta event (status byte 0xFF) consumes the meta-type byte, a
one-byte length n, and exactly n payload bytes copied verbatim into the
emitted event, and the running status is returned unchanged; a channel
continuation byte arriving after a meta event therefore still resolves
against the command established before it, as the concrete
Note-On / tempo-meta / continuation sequence shows. -/
theorem meta_event_parse (d t n rc : Nat) (payload rest : List Nat)
    (hd : d < 0x80) (hlen : payload.length = n) :
    midi_parse_event (d :: 0xFF :: t :: n :: (payload ++ rest)) rc
      = some ({ delta_time := d, type := MIDI_EVENT_TYPE_META, cmd := t, chan := 0,
                size := n, data := payload }, 4 + n, rc, rest) ∧
    midi_parse_event [0x00, 0xFF, 0x51, 0x03, 0x07, 0xA1, 0x20, 0x00, 0x3E, 0x50] 9
      = some ({ delta_time := 0, type := MIDI_EVENT_TYPE_META, cmd := 0x51, chan := 0,
                size := 3, data := [0x07, 0xA1, 0x20] }, 7, 9, [0x00, 0x3E, 0x50]) ∧
    midi_parse_event [0x00, 0x3E, 0x50] 9
      = some ({ delta_time := 0, type := MIDI_EVENT_TYPE_EVENT, cmd := 9, chan := 14,
                size := 2, data := [0x3E, 0x50] }, 3, 9, []) := by
  refine ⟨?_, by decide, by decide⟩
  unfold midi_parse_event
  rw [midi_parse_delta_time_low hd]
  simp only [readByte]
  rw [List.take_left' hlen, List.drop_left' hlen]
  norm_num

/-- Witness for C8: the tempo meta event FF 51 03 07 A1 20 after a
one-byte delta time, with running status 9 held across it. -/
theorem meta_event_parse_witness :
    midi_parse_event (0 :: 0xFF :: 0x51 :: 3 :: ([0x07, 0xA1, 0x20] ++ [0x00])) 9
      = some ({ delta_time := 0, type := MIDI_EVENT_TYPE_META, cmd := 0x51, chan := 0,
                size := 3, data := [0x07, 0xA1, 0x20] }, 7, 9, [0x00]) :=
  (meta_event_parse 0 0x51 3 9 [0x07, 0xA1, 0x20] [0x00] (by decide) (by decide)).1

/-- C9: an event whose first byte after the delta time has its top nibble
below 0x8 is a continuation byte; when the running command has no bit 3
set — as at process start, where the static is zero-initialised and no
command was ever established — `midi_parse_event` fails and emits no
event. -/
theorem continuation_without_running_status (d b rc : Nat) (rest : List Nat)
    (hd : d < 0x80) (hb : b < 0x80) (hrc : rc &&& 0x08 = 0) :
    midi_parse_event (d :: b :: rest) rc = none := by
  unfold midi_parse_event
  rw [midi_parse_delta_time_low hd]
  simp [readByte, low_byte_cmd0 b hb, hrc, show b ≠ 0xFF by omega]

/-- Witness for C9: the continuation byte 0x3E with the initial running
status 0. -/
theorem continuation_without_running_status_witness :
    midi_parse_event [0x00, 0x3E, 0x50] 0 = none :=
  continuation_without_running_status 0 0x3E 0 [0x50] (by decide) (by decide) (by decide)

/-- C2 counterexample: decoding 0x90 0x3C 0x40 establishes running status
9/channel 0, and the continuation 0x3E 0x50 does decode as a second
Note-On with command 9 — but its channel field is 14 (the low nibble of
the data byte 0x3E), not 0: the code stores only the 4-bit command in
`running_cmd` and recomputes `chan` from the current byte. -/
theorem running_status_channel_not_reused :
    ((midi_parse_event [0x00, 0x90, 0x3C, 0x40, 0x00, 0x3E, 0x50] 0).map
        (fun r => (r.1.cmd, r.1.chan, r.2.2.1, r.2.2.2))) = some (9, 0, 9, [0x00, 0x3E, 0x50]) ∧
    ((midi_parse_event [0x00, 0x3E, 0x50] 9).map
        (fun r => (r.1.cmd, r.1.chan))) = some (9, 14) ∧
    (14 : Nat) ≠ 0 := by decide

/-- C2 (amended): the byte sequence 0x90 0x3C 0x40 followed by the
continuation 0x3E 0x50 decodes as two Note-On events with command nibble
0x9; the second reuses only the command from the running status, while its
channel field is the low nibble of its own first data byte (0x3E gives
channel 14, not the channel 0 of the status byte). -/
theorem running_status_two_event_decode :
    midi_parse_event [0x00, 0x90, 0x3C, 0x40, 0x00, 0x3E, 0x50] 0
      = some ({ delta_time := 0, type := MIDI_EVENT_TYPE_EVENT, cmd := 9, chan := 0,
                size := 2, data := [0x3C, 0x40] }, 4, 9, [0x00, 0x3E, 0x50]) ∧
    midi_parse_event [0x00, 0x3E, 0x50] 9
      = some ({ delta_time := 0, type := MIDI_EVENT_TYPE_EVENT, cmd := 9, chan := 14,
                size := 2, data := [0x3E, 0x50] }, 3, 9, []) := by decide

/-- C3 counterexample: a track declaring 3 data bytes whose single event
consumes 4 bytes parses successfully — `midi_parse_track` returns the
event list (consumed count 4 exceeding the declared 3) instead of any
error. -/
theorem track_overrun_silently_accepted :
    midi_parse_track ([77, 84, 114, 107, 0, 0, 0, 3] ++ [0x00, 0x90, 0x3C, 0x40]) 0
      = some ([{ delta_time := 0, type := MIDI_EVENT_TYPE_EVENT, cmd := 9, chan := 0,
                 size := 2, data := [0x3C, 0x40] }], 4, 9, []) ∧
    (3 : Nat) < 4 := by decide

/-- C3 (amended): `midi_parse_track` never reports an overrun of the
declared track length: its loop stops as soon as the cumulative consumed
count reaches or exceeds the declared size and reports success, so on
every successful parse the consumed count is at least — but possibly
strictly greater than — the declared size. -/
theorem track_parse_consumes_at_least_declared (input : List Nat) (rc size : Nat)
    (rest0 : List Nat) (evs : List midi_event_t) (b rc2 : Nat) (rem : List Nat)
    (hhdr : midi_parse_track_hdr input = some (size, rest0))
    (h : midi_parse_track input rc = some (evs, b, rc2, rem)) :
    size ≤ b := by
  unfold midi_parse_track at h
  rw [hhdr] at h
  split at h
  · exact absurd h (by simp)
  · rename_i size1 rest1 heq
    simp only [Option.some.injEq, Prod.mk.injEq] at heq
    obtain ⟨hs, hr⟩ := heq
    subst hs
    subst hr
    split at h
    · exact absurd h (by simp)
    · rename_i ev c rc1 rest2 he
      split at h
      · exact absurd h (by simp)
      · rename_i evs1 b1 rc3 rem1 hl
        simp only [Option.some.injEq, Prod.mk.injEq] at h
        obtain ⟨-, hb, -, -⟩ := h
        exact hb ▸ midi_parse_track_loop_ge (size + 1) size rest2 rc1 c evs1 b1 rc3 rem1 hl

/-- Witness for C3 (amended) on the concrete overrunning track: declared
size 3, consumed 4. -/
theorem track_parse_consumes_at_least_declared_witness :
    midi_parse_track ([77, 84, 114, 107, 0, 0, 0, 3] ++ [0x00, 0x90, 0x3C, 0x40]) 0
      = some ([{ delta_time := 0, type := MIDI_EVENT_TYPE_EVENT, cmd := 9, chan := 0,
                 size := 2, data := [0x3C, 0x40] }], 4, 9, []) ∧
    (3 : Nat) ≤ 4 :=
  ⟨by decide,
   track_parse_consumes_at_least_declared
     ([77, 84, 114, 107, 0, 0, 0, 3] ++ [0x00, 0x90, 0x3C, 0x40]) 0 3
     [0x00, 0x90, 0x3C, 0x40]
     [{ delta_time := 0, type := MIDI_EVENT_TYPE_EVENT, cmd := 9, chan := 0,
        size := 2, data := [0x3C, 0x40] }] 4 9 []
     (by decide) (by decide)⟩

/-- C4 counterexample: the same track bytes (a track whose first event is
the continuation 0x3E 0x50) decode to `none` when no track was decoded
before (running status still its initial 0) but to a Note-On event when a
preceding track established running status 9 — so the sequence of events
decoded for a track is not independent of previously decoded tracks. -/
theorem track_decode_depends_on_previous_tracks :
    midi_parse_track ([77, 84, 114, 107, 0, 0, 0, 4] ++ [0x00, 0x90, 0x3C, 0x40]) 0
      = some ([{ delta_time := 0, type := MIDI_EVENT_TYPE_EVENT, cmd := 9, chan := 0,
                 size := 2, data := [0x3C, 0x40] }], 4, 9, []) ∧
    midi_parse_track ([77, 84, 114, 107, 0, 0, 0, 3] ++ [0x00, 0x3E, 0x50]) 0 = none ∧
    midi_parse_track ([77, 84, 114, 107, 0, 0, 0, 3] ++ [0x00, 0x3E, 0x50]) 9
      = some ([{ delta_time := 0, type := MIDI_EVENT_TYPE_EVENT, cmd := 9, chan := 14,
                 size := 2, data := [0x3E, 0x50] }], 3, 9, []) := by decide

/-- C4 (amended): running status is not reset when a new track begins:
`midi_parse_track` decodes its first event with whatever running status
earlier decodes left behind (0 only at process start), so a track whose
first event is a continuation byte fails when decoded first but succeeds
— with the inherited command — under any established running status. -/
theorem track_parse_uses_inherited_running_status (rc : Nat)
    (h8 : rc &&& 0x08 ≠ 0) (h12 : rc ≠ 0xC) (h13 : rc ≠ 0xD) :
    midi_parse_track ([77, 84, 114, 107, 0, 0, 0, 3] ++ [0x00, 0x3E, 0x50]) rc
      = some ([{ delta_time := 0, type := MIDI_EVENT_TYPE_EVENT, cmd := rc, chan := 14,
                 size := 2, data := [0x3E, 0x50] }], 3, rc, []) ∧
    midi_parse_track ([77, 84, 114, 107, 0, 0, 0, 3] ++ [0x00, 0x3E, 0x50]) 0 = none := by
  refine ⟨?_, by decide⟩
  have hev : midi_parse_event [0x00, 0x3E, 0x50] rc
      = some ({ delta_time := 0, type := MIDI_EVENT_TYPE_EVENT, cmd := rc, chan := 14,
                size := 2, data := [0x3E, 0x50] }, 3, rc, []) := by
    unfold midi_parse_event
    rw [midi_parse_delta_time_low (by norm_num)]
    simp [readByte, h8, h12, h13]
    rfl
  have hhdr : midi_parse_track_hdr ([77, 84, 114, 107, 0, 0, 0, 3] ++ [0x00, 0x3E, 0x50])
      = some (3, [0x00, 0x3E, 0x50]) := by decide
  unfold midi_parse_track
  rw [hhdr]
  simp [hev, midi_parse_track_loop]

/-- Witness for C4 (amended) at running status 9. -/
theorem track_parse_uses_inherited_running_status_witness :
    midi_parse_track ([77, 84, 114, 107, 0, 0, 0, 3] ++ [0x00, 0x3E, 0x50]) 9
      = some ([{ delta_time := 0, type := MIDI_EVENT_TYPE_EVENT, cmd := 9, chan := 14,
                 size := 2, data := [0x3E, 0x50] }], 3, 9, []) :=
  (track_parse_uses_inherited_running_status 9 (by decide) (by decide) (by decide)).1

end MidiToScore

